import Mathlib

/-!
Verification of the arc/polygon drawing program (`ver1.py`, class `Good`).

The drawing canvas and the numerical root-finder are external collaborators;
the root-finder is modelled as a function parameter (`Solver`) receiving the
residual function and the initial guess, and the canvas as a trace of drawn
arcs / filled polygons / image effects.  Numeric values are modelled as exact
rationals (polygon pipeline) and reals (arc pipeline).
-/

namespace DrawingRobots

/-- `self.image_size = 3000`. -/
def image_size : ℕ := 3000

/-- `self.size_multiplier = 1`. -/
def size_multiplier : ℕ := 1

/-- `self.scale = 1000`. -/
def scale : ℕ := 1000

/-- `self.drawing_line_width = 6`. -/
def drawing_line_width : ℕ := 6

/-! Polygon renderer (`Good.draw_polygons`), exact over ℚ -/

/-- The scaling loop of `draw_polygons`: each coordinate multiplied by `self.scale`. -/
def scale_poly (p : List (ℚ × ℚ)) : List (ℚ × ℚ) :=
  p.map (fun c => (c.1 * (scale : ℚ), c.2 * (scale : ℚ)))

/-- Lines 144-146 of `draw_polygons`: if the scaled polygon has more than one
point and its first point equals its last, the last point is popped. -/
def close_drop (p : List (ℚ × ℚ)) : List (ℚ × ℚ) :=
  if 1 < p.length then (if p.head? = p.getLast? then p.dropLast else p) else p

/-- `Good.draw_polygons`: the list of point lists handed to the fill primitive
(`d.polygon(resized_polygon, ...)`), one per input polygon, in order. -/
def draw_polygons (data : List (List (ℚ × ℚ))) : List (List (ℚ × ℚ)) :=
  data.map (fun poly => close_drop (scale_poly poly))

/-! Arc chain renderer (`Good.draw_arcs` and helpers), over ℝ -/

/-- Image side effects issued at the end of a successful `draw_arcs` call. -/
inductive Effect where
  | resize : ℕ → ℕ → Effect
  | save : String → Effect
  | showImage : Effect
deriving DecidableEq

/-- The mutable fields of `Good` that the arc chain reads and writes.
Fields that Python initialises to `None` (or to the empty list `[]`) are
`Option`-typed; `none` models the uninitialised value. -/
structure GoodState where
  circle_center : ℝ × ℝ
  starting_point : Option (ℝ × ℝ)
  l : Option ℝ
  radius : Option ℝ
  ending_point : Option (ℝ × ℝ)
  prev_circle_center : Option (ℝ × ℝ)
  prev_radius : Option ℝ
  prev_was_negative_radius : Bool
  same_direction_as_previous : Bool
  negative_radius : Bool

/-- The observable result of resolving one arc in the `draw_arcs` loop:
the values held by the iteration's locals / `self` fields, including the two
angles actually passed to the drawing primitive `d.arc`. -/
structure ResolvedArc where
  startingPoint : ℝ × ℝ
  circleCenter : ℝ × ℝ
  radius : ℝ
  l : ℝ
  negativeTurn : Bool
  startAngleRad : ℝ
  startAngleDeg : ℤ
  drawStart : ℝ
  drawEnd : ℝ
  pie : List ℝ
  colorIdx : ℕ
  endingPoint : ℝ × ℝ

noncomputable section

/-- The external root-finder collaborator (`scipy.optimize.fsolve`): takes the
residual function and the initial guess, returns a point. -/
def Solver : Type := ((ℝ × ℝ) → ℝ × ℝ) → (ℝ × ℝ) → (ℝ × ℝ)

/-- `math.atan2 y x`, modelled as the argument of the complex number `x + y*i`
(same convention: range `(-pi, pi]`, `atan2 0 0 = 0`). -/
def atan2 (y x : ℝ) : ℝ := Complex.arg ⟨x, y⟩

/-- `math.degrees`. -/
def degrees (x : ℝ) : ℝ := x * 180 / Real.pi

/-- Python float floor division `a // b` (for `b ≠ 0`). -/
def fdiv (a b : ℝ) : ℝ := (⌊a / b⌋ : ℤ)

/-- Lines 93-97 of `draw_arcs`: the stored radius is the absolute value of the
scaled signed radius. -/
def norm_radius (radius0 : ℝ) : ℝ := if radius0 < 0 then |radius0| else radius0

/-- `[self.image.size[0] // 2, self.image.size[1] // 2]` (integer division). -/
def canvasCenter : ℝ × ℝ :=
  (((image_size * size_multiplier / 2 : ℕ) : ℝ), ((image_size * size_multiplier / 2 : ℕ) : ℝ))

/-- `Good.find_new_circle_center` (lines 33-52): the pair of squared-distance
residuals `(OO, BO)` for a candidate center `xy`. -/
def find_new_circle_center (prev_circle_center : ℝ × ℝ) (prev_radius radius : ℝ)
    (starting_point : ℝ × ℝ) (same_direction_as_previous : Bool) (xy : ℝ × ℝ) : ℝ × ℝ :=
  let Ox := prev_circle_center.1
  let Oy := prev_circle_center.2
  let OO_value := if ! same_direction_as_previous then prev_radius + radius
                  else prev_radius - radius
  let BO_value := radius
  let Bx := starting_point.1
  let By := starting_point.2
  let x := xy.1
  let y := xy.2
  let OO := -OO_value^2 + Ox^2 - 2*Ox*x + x^2 + Oy^2 - 2*Oy*y + y^2
  let BO := -BO_value^2 + Bx^2 - 2*Bx*x + x^2 + By^2 - 2*By*y + y^2
  (OO, BO)

/-- `Good.find_ending_point` (lines 54-67). -/
def find_ending_point (negative_radius : Bool) (l radius : ℝ) (circle_center : ℝ × ℝ)
    (angle_rad : ℝ) : ℝ × ℝ :=
  let angle := if negative_radius then angle_rad - l / radius else angle_rad + l / radius
  (circle_center.1 + radius * Real.cos angle, circle_center.2 + radius * Real.sin angle)

/-- `Good.find_pie_coordinates` (lines 69-79). -/
def find_pie_coordinates (circle_radius : ℝ) (circle_center : ℝ × ℝ) : List ℝ :=
  [circle_center.1 - circle_radius, circle_center.2 - circle_radius,
   circle_center.1 + circle_radius, circle_center.2 + circle_radius]

/-- Lines 109-125 of the `draw_arcs` loop body, once the arc's starting point
`sp` and circle center `cc` are known.  `none` models the unhandled
`ZeroDivisionError` raised by `(180 * self.l) // (math.pi * self.radius)`
when `radius = 0`. -/
def step_core (i : ℕ) (l radius : ℝ) (negative_radius same_direction : Bool)
    (prev_circle_center : ℝ × ℝ) (prev_radius_field : Option ℝ) (sp cc : ℝ × ℝ) :
    Option (ResolvedArc × GoodState) :=
  if radius = 0 then none
  else
    let starting_angle_rad := atan2 (sp.2 - cc.2) (sp.1 - cc.1)
    let starting_angle_deg : ℤ := round (degrees starting_angle_rad)
    let span : ℝ := fdiv (180 * l) (Real.pi * radius)
    let ds : ℝ := if negative_radius then (starting_angle_deg : ℝ) - span
                  else (starting_angle_deg : ℝ)
    let de : ℝ := if negative_radius then (starting_angle_deg : ℝ)
                  else span + (starting_angle_deg : ℝ)
    let ep := find_ending_point negative_radius l radius cc starting_angle_rad
    some ({ startingPoint := sp, circleCenter := cc, radius := radius, l := l,
            negativeTurn := negative_radius, startAngleRad := starting_angle_rad,
            startAngleDeg := starting_angle_deg, drawStart := ds, drawEnd := de,
            pie := find_pie_coordinates radius cc, colorIdx := i % 3,
            endingPoint := ep },
          { circle_center := cc, starting_point := some sp, l := some l,
            radius := some radius, ending_point := some ep,
            prev_circle_center := some prev_circle_center,
            prev_radius := prev_radius_field,
            prev_was_negative_radius := negative_radius,
            same_direction_as_previous := same_direction,
            negative_radius := negative_radius })

/-- One iteration of the `draw_arcs` loop (lines 90-125) on arc `i`.
For `i = 0` the starting point is placed left of the current center and the
center is kept; otherwise the starting point is the stored ending point and
the center comes from the root-finder applied to `find_new_circle_center`
seeded at `(0, 0)`.  `none` models an uncaught Python exception. -/
def step (solver : Solver) (i : ℕ) (arc : ℝ × ℝ) (s : GoodState) :
    Option (ResolvedArc × GoodState) :=
  let l := arc.1 * (scale : ℝ)
  let radius0 := arc.2 * (scale : ℝ)
  let negative_radius : Bool := if radius0 < 0 then true else false
  let radius := norm_radius radius0
  let same : Bool :=
    if (s.prev_was_negative_radius && negative_radius)
        || (!s.prev_was_negative_radius && !negative_radius) then true else false
  if i = 0 then
    step_core i l radius negative_radius same s.circle_center s.radius
      (s.circle_center.1 - radius, s.circle_center.2) s.circle_center
  else
    match s.ending_point, s.radius with
    | some ep, some pr =>
        step_core i l radius negative_radius same s.circle_center s.radius ep
          (solver (find_new_circle_center s.circle_center pr radius ep same) (0, 0))
    | _, _ => none

/-- The loop of `draw_arcs`, collecting the resolved arcs in order; the final
state is `none` if an iteration raised. -/
def draw_arcs_loop (solver : Solver) :
    ℕ → List (ℝ × ℝ) → GoodState → List ResolvedArc × Option GoodState
  | _, [], s => ([], some s)
  | i, arc :: rest, s =>
    match step solver i arc s with
    | none => ([], none)
    | some (ra, s') =>
      ((ra :: (draw_arcs_loop solver (i + 1) rest s').1),
       (draw_arcs_loop solver (i + 1) rest s').2)

/-- Lines 127-129: resize to the same size, save to the fixed filename, show. -/
def finish_effects : List Effect :=
  [Effect.resize (image_size * size_multiplier) (image_size * size_multiplier),
   Effect.save "drawn_arcs.png", Effect.showImage]

/-- `Good.draw_arcs`: the resolved-arc trace, and (unless an iteration raised)
the final state together with the trailing image effects. -/
def draw_arcs (solver : Solver) (data : List (ℝ × ℝ)) (s : GoodState) :
    List ResolvedArc × Option (GoodState × List Effect) :=
  ((draw_arcs_loop solver 0 data s).1,
   ((draw_arcs_loop solver 0 data s).2).map (fun s' => (s', finish_effects)))

/-- `Good.reset_image_coordinates` (lines 152-154). -/
def reset_image_coordinates (s : GoodState) : GoodState :=
  { s with circle_center := canvasCenter }

/-- The state built by `Good.__init__`. -/
def initGood : GoodState :=
  { circle_center := canvasCenter, starting_point := none, l := none, radius := none,
    ending_point := none, prev_circle_center := none, prev_radius := none,
    prev_was_negative_radius := false, same_direction_as_previous := true,
    negative_radius := false }

/-- A concrete solver instance (returns the initial guess), used to exercise
the solver-independent parts of the pipeline. -/
def solver₀ : Solver := fun _ guess => guess

/-- The relations that hold between the fields of every arc resolved by one
iteration of the `draw_arcs` loop. -/
def StepInv (a : ResolvedArc) : Prop :=
  a.startAngleRad
      = atan2 (a.startingPoint.2 - a.circleCenter.2) (a.startingPoint.1 - a.circleCenter.1)
  ∧ a.startAngleDeg = round (degrees a.startAngleRad)
  ∧ a.drawStart = (if a.negativeTurn then
        (a.startAngleDeg : ℝ) - fdiv (180 * a.l) (Real.pi * a.radius)
      else (a.startAngleDeg : ℝ))
  ∧ a.drawEnd = (if a.negativeTurn then (a.startAngleDeg : ℝ)
      else fdiv (180 * a.l) (Real.pi * a.radius) + (a.startAngleDeg : ℝ))
  ∧ a.endingPoint = find_ending_point a.negativeTurn a.l a.radius a.circleCenter a.startAngleRad

/-- The arc resolved for the single-arc chain `[(0.5, 0.01)]` on a fresh
session: scaled length 500, scaled radius 10, start directly left of the
canvas center. -/
def arc₁ : ResolvedArc :=
  { startingPoint := (1490, 1500), circleCenter := (1500, 1500), radius := 10, l := 500,
    negativeTurn := false, startAngleRad := Real.pi, startAngleDeg := 180,
    drawStart := 180, drawEnd := 3044, pie := [1490, 1490, 1510, 1510], colorIdx := 0,
    endingPoint := (1500 + 10 * Real.cos (Real.pi + 50), 1500 + 10 * Real.sin (Real.pi + 50)) }

/-- The session state after resolving `arc₁`. -/
def state₁ : GoodState :=
  { circle_center := (1500, 1500), starting_point := some (1490, 1500), l := some 500,
    radius := some 10,
    ending_point := some (1500 + 10 * Real.cos (Real.pi + 50), 1500 + 10 * Real.sin (Real.pi + 50)),
    prev_circle_center := some (1500, 1500), prev_radius := none,
    prev_was_negative_radius := false, same_direction_as_previous := true,
    negative_radius := false }

end

/-! Theorems -/

/-! Helper lemmas about one loop iteration -/

lemma step_core_spec {i : ℕ} {l radius : ℝ} {negb sameb : Bool} {pcc : ℝ × ℝ}
    {prf : Option ℝ} {sp cc : ℝ × ℝ} {ra : ResolvedArc} {s' : GoodState}
    (h : step_core i l radius negb sameb pcc prf sp cc = some (ra, s')) :
    ra = { startingPoint := sp, circleCenter := cc, radius := radius, l := l,
           negativeTurn := negb,
           startAngleRad := atan2 (sp.2 - cc.2) (sp.1 - cc.1),
           startAngleDeg := round (degrees (atan2 (sp.2 - cc.2) (sp.1 - cc.1))),
           drawStart := (if negb then
               ((round (degrees (atan2 (sp.2 - cc.2) (sp.1 - cc.1))) : ℤ) : ℝ)
                 - fdiv (180 * l) (Real.pi * radius)
             else ((round (degrees (atan2 (sp.2 - cc.2) (sp.1 - cc.1))) : ℤ) : ℝ)),
           drawEnd := (if negb then
               ((round (degrees (atan2 (sp.2 - cc.2) (sp.1 - cc.1))) : ℤ) : ℝ)
             else fdiv (180 * l) (Real.pi * radius)
                 + ((round (degrees (atan2 (sp.2 - cc.2) (sp.1 - cc.1))) : ℤ) : ℝ)),
           pie := find_pie_coordinates radius cc, colorIdx := i % 3,
           endingPoint := find_ending_point negb l radius cc (atan2 (sp.2 - cc.2) (sp.1 - cc.1)) }
    ∧ s' = { circle_center := cc, starting_point := some sp, l := some l,
             radius := some radius,
             ending_point := some (find_ending_point negb l radius cc
               (atan2 (sp.2 - cc.2) (sp.1 - cc.1))),
             prev_circle_center := some pcc, prev_radius := prf,
             prev_was_negative_radius := negb, same_direction_as_previous := sameb,
             negative_radius := negb } := by
  unfold step_core at h
  split at h
  · exact absurd h (by simp)
  · simp only [Option.some.injEq, Prod.mk.injEq] at h
    exact ⟨h.1.symm, h.2.symm⟩

lemma step_inv {solver : Solver} {i : ℕ} {arc : ℝ × ℝ} {s : GoodState}
    {ra : ResolvedArc} {s' : GoodState} (h : step solver i arc s = some (ra, s')) :
    StepInv ra ∧ s'.ending_point = some ra.endingPoint
    ∧ (i ≠ 0 → s.ending_point = some ra.startingPoint) := by
  simp only [step] at h
  by_cases hi : i = 0
  · rw [if_pos hi] at h
    obtain ⟨hra, hs'⟩ := step_core_spec h
    subst hra; subst hs'
    exact ⟨⟨rfl, rfl, rfl, rfl, rfl⟩, rfl, fun hc => absurd hi hc⟩
  · rw [if_neg hi] at h
    cases hep : s.ending_point with
    | none => rw [hep] at h; cases s.radius <;> simp at h
    | some ep =>
      cases hrad : s.radius with
      | none => rw [hep, hrad] at h; simp at h
      | some pr =>
        rw [hep, hrad] at h
        obtain ⟨hra, hs'⟩ := step_core_spec h
        subst hra; subst hs'
        exact ⟨⟨rfl, rfl, rfl, rfl, rfl⟩, rfl, fun _ => rfl⟩

lemma step_first {solver : Solver} {arc : ℝ × ℝ} {s : GoodState}
    {ra : ResolvedArc} {s' : GoodState} (h : step solver 0 arc s = some (ra, s')) :
    ra.circleCenter = s.circle_center
    ∧ ra.radius = norm_radius (arc.2 * (scale : ℝ))
    ∧ ra.startingPoint
        = (s.circle_center.1 - norm_radius (arc.2 * (scale : ℝ)), s.circle_center.2) := by
  simp only [step] at h
  split at h
  · obtain ⟨hra, _⟩ := step_core_spec h
    subst hra
    exact ⟨rfl, rfl, rfl⟩
  · simp_all

lemma step_radius_zero (solver : Solver) (i : ℕ) (len : ℝ) (s : GoodState) :
    step solver i (len, (0:ℝ)) s = none := by
  by_cases hi : i = 0
  · norm_num [step, step_core, hi, norm_radius]
  · cases hep : s.ending_point with
    | none => simp [step, hi, hep]
    | some ep =>
      cases hrad : s.radius with
      | none => simp [step, hi, hep, hrad]
      | some pr => norm_num [step, step_core, hi, hep, hrad, norm_radius]

/-! Helper lemmas about the whole loop -/

lemma loop_mem_inv (solver : Solver) :
    ∀ (data : List (ℝ × ℝ)) (i : ℕ) (s : GoodState),
      ∀ ra ∈ (draw_arcs_loop solver i data s).1, StepInv ra := by
  intro data
  induction data with
  | nil => intro i s ra hra; simp [draw_arcs_loop] at hra
  | cons a rest ih =>
    intro i s ra hra
    rcases hstep : step solver i a s with _ | ⟨rb, s'⟩
    · simp [draw_arcs_loop, hstep] at hra
    · simp only [draw_arcs_loop, hstep, List.mem_cons] at hra
      rcases hra with rfl | hmem
      · exact (step_inv hstep).1
      · exact ih (i + 1) s' ra hmem

lemma loop_chain (solver : Solver) :
    ∀ (data : List (ℝ × ℝ)) (i : ℕ) (s : GoodState),
      List.Chain' (fun a b => b.startingPoint = a.endingPoint) (draw_arcs_loop solver i data s).1
      ∧ (∀ ra, ((draw_arcs_loop solver i data s).1).head? = some ra → i ≠ 0 →
          s.ending_point = some ra.startingPoint) := by
  intro data
  induction data with
  | nil =>
    intro i s
    exact ⟨by simp [draw_arcs_loop], fun ra h => by simp [draw_arcs_loop] at h⟩
  | cons a rest ih =>
    intro i s
    rcases hstep : step solver i a s with _ | ⟨rb, s'⟩
    · exact ⟨by simp [draw_arcs_loop, hstep],
        fun ra h => by simp [draw_arcs_loop, hstep] at h⟩
    · have hs := step_inv hstep
      have hrest := ih (i + 1) s'
      constructor
      · simp only [draw_arcs_loop, hstep]
        rw [List.chain'_cons']
        refine ⟨?_, hrest.1⟩
        intro y hy
        have h2 := hrest.2 y (by simpa using hy) (by omega)
        rw [hs.2.1] at h2
        exact (Option.some.inj h2).symm
      · intro ra hra _
        simp only [draw_arcs_loop, hstep, List.head?_cons, Option.some.injEq] at hra
        subst hra
        exact hs.2.2 (by assumption)

lemma loop_zero_radius (solver : Solver) :
    ∀ (data : List (ℝ × ℝ)) (k : ℕ) (i : ℕ) (s : GoodState) (len : ℝ),
      data.get? k = some (len, 0) →
      (draw_arcs_loop solver i data s).2 = none
      ∧ (draw_arcs_loop solver i data s).1.length ≤ k := by
  intro data
  induction data with
  | nil => intro k i s len hk; simp at hk
  | cons a rest ih =>
    intro k i s len hk
    cases k with
    | zero =>
      rw [List.get?_cons_zero, Option.some.injEq] at hk
      subst hk
      simp [draw_arcs_loop, step_radius_zero]
    | succ k' =>
      have hk' : rest.get? k' = some (len, 0) := by simpa using hk
      rcases hstep : step solver i a s with _ | ⟨rb, s'⟩
      · simp [draw_arcs_loop, hstep]
      · have hr := ih k' (i + 1) s' len hk'
        simp only [draw_arcs_loop, hstep, List.length_cons]
        exact ⟨hr.1, by omega⟩

lemma draw_arcs_head (solver : Solver) (d : ℝ × ℝ) (rest : List (ℝ × ℝ))
    (s : GoodState) (a : ResolvedArc)
    (h : ((draw_arcs solver (d :: rest) s).1).head? = some a) :
    a.circleCenter = s.circle_center
    ∧ a.radius = norm_radius (d.2 * (scale : ℝ))
    ∧ a.startingPoint = (s.circle_center.1 - a.radius, s.circle_center.2) := by
  rcases hstep : step solver 0 d s with _ | ⟨rb, s'⟩
  · have : (draw_arcs solver (d :: rest) s).1 = [] := by
      simp [draw_arcs, draw_arcs_loop, hstep]
    rw [this] at h
    simp at h
  · have hhead : a = rb := by
      have : (draw_arcs solver (d :: rest) s).1
          = rb :: (draw_arcs_loop solver 1 rest s').1 := by
        simp [draw_arcs, draw_arcs_loop, hstep]
      rw [this, List.head?_cons, Option.some.injEq] at h
      exact h.symm
    subst hhead
    obtain ⟨h1, h2, h3⟩ := step_first hstep
    exact ⟨h1, h2, by rw [h3, h2]⟩

/-! Concrete evaluation of scenario 1: data `[(0.5, 0.01)]`, fresh state -/

lemma atan2_zero_of_neg {x : ℝ} (hx : x < 0) : atan2 0 x = Real.pi := by
  have hxc : (⟨x, (0:ℝ)⟩ : ℂ) = (x : ℂ) := rfl
  unfold atan2
  rw [hxc]
  exact Complex.arg_ofReal_of_neg hx

lemma degrees_pi : degrees Real.pi = 180 := by
  unfold degrees
  rw [mul_comm]
  exact mul_div_cancel_right₀ 180 Real.pi_ne_zero

lemma round_degrees_pi : round (degrees Real.pi) = (180 : ℤ) := by
  rw [degrees_pi, show ((180:ℝ)) = ((180:ℕ):ℝ) by norm_num, round_natCast]
  norm_num

lemma floor_span₁ : fdiv (90000 : ℝ) (Real.pi * 10) = 2864 := by
  have h1 := Real.pi_gt_d6
  have h2 := Real.pi_lt_d6
  have hfloor : ⌊(90000 : ℝ) / (Real.pi * 10)⌋ = 2864 := by
    rw [Int.floor_eq_iff]
    constructor
    · rw [le_div_iff₀ (by positivity)]
      push_cast
      nlinarith
    · rw [div_lt_iff₀ (by positivity)]
      push_cast
      nlinarith
  unfold fdiv
  rw [hfloor]
  norm_num

lemma scenario1_step (solver : Solver) :
    step solver 0 ((1:ℝ)/2, 1/100) initGood = some (arc₁, state₁) := by
  have h1 : atan2 0 (-10 : ℝ) = Real.pi := atan2_zero_of_neg (by norm_num)
  have h2 : round (degrees Real.pi) = (180 : ℤ) := round_degrees_pi
  have h3 : fdiv (90000 : ℝ) (Real.pi * 10) = 2864 := floor_span₁
  simp only [step, step_core]
  norm_num [initGood, canvasCenter, image_size, size_multiplier, scale, norm_radius,
    find_pie_coordinates, find_ending_point, arc₁, state₁, h1, h2, h3]

lemma scenario1_arcs (solver : Solver) :
    (draw_arcs solver [((1:ℝ)/2, 1/100)] initGood).1 = [arc₁] := by
  show (draw_arcs_loop solver 0 [((1:ℝ)/2, 1/100)] initGood).1 = [arc₁]
  simp only [draw_arcs_loop, scenario1_step solver]

/-- C1: the residual function returns exactly the pair
`(|C-O|^2 - OO_value^2, |C-B|^2 - Rcur^2)`, with `OO_value = Rprev - Rcur`
when the turn flags agree and `Rprev + Rcur` when they differ; hence at any
exact root the distance from the previous center to `C` is `|Rprev - Rcur|`
(same direction) or `Rprev + Rcur` (opposite), and the distance from the
starting point to `C` is `Rcur`. -/
theorem c1_residuals (Ox Oy pr r Bx By x y : ℝ) (same : Bool)
    (hpr : 0 ≤ pr) (hr : 0 ≤ r) :
    find_new_circle_center (Ox, Oy) pr r (Bx, By) same (x, y)
      = (((x - Ox)^2 + (y - Oy)^2) - (if same then pr - r else pr + r)^2,
         ((x - Bx)^2 + (y - By)^2) - r^2)
    ∧ (find_new_circle_center (Ox, Oy) pr r (Bx, By) same (x, y) = (0, 0) →
        Real.sqrt ((x - Ox)^2 + (y - Oy)^2) = (if same then |pr - r| else pr + r)
        ∧ Real.sqrt ((x - Bx)^2 + (y - By)^2) = r) := by
  have key : find_new_circle_center (Ox, Oy) pr r (Bx, By) same (x, y)
      = (((x - Ox)^2 + (y - Oy)^2) - (if same then pr - r else pr + r)^2,
         ((x - Bx)^2 + (y - By)^2) - r^2) := by
    cases same <;> simp [find_new_circle_center, Prod.ext_iff] <;> constructor <;> ring
  refine ⟨key, fun h => ?_⟩
  rw [key, Prod.mk.injEq] at h
  obtain ⟨h1, h2⟩ := h
  constructor
  · have e1 : (x - Ox)^2 + (y - Oy)^2 = (if same then pr - r else pr + r)^2 := by
      cases same <;> simp_all <;> linarith
    rw [e1, Real.sqrt_sq_eq_abs]
    cases same
    · simp only [if_false, Bool.false_eq_true]
      exact abs_of_nonneg (by linarith)
    · simp
  · have e2 : (x - Bx)^2 + (y - By)^2 = r^2 := by linarith
    rw [e2, Real.sqrt_sq_eq_abs, abs_of_nonneg hr]

theorem c1_residuals_witness :
    Real.sqrt (((0:ℝ) - 0)^2 + ((0:ℝ) - 0)^2) = (if (true : Bool) then |(1:ℝ) - 1| else 1 + 1)
    ∧ Real.sqrt (((0:ℝ) - 1)^2 + ((0:ℝ) - 0)^2) = 1 :=
  (c1_residuals 0 0 1 1 1 0 0 0 true (by norm_num) (by norm_num)).2
    (by norm_num [find_new_circle_center])

/-- C7: a polygon (with at least two points) whose scaled first point equals
its scaled last point has the trailing duplicate dropped, so the fill
primitive receives exactly the scaled points of the polygon with the
duplicate already removed; concretely, `[(0,0),(1,0),(1,1),(0,0)]` at scale
1000 is filled with vertices `(0,0),(1000,0),(1000,1000)`. -/
theorem c7_polygon_closing (p : List (ℚ × ℚ)) (h2 : 2 ≤ p.length)
    (hfl : (scale_poly p).head? = (scale_poly p).getLast?) :
    draw_polygons [p] = [scale_poly p.dropLast]
    ∧ draw_polygons [[(0,0),(1,0),(1,1),(0,0)]]
        = [[((0:ℚ),(0:ℚ)),(1000,0),(1000,1000)]] := by
  constructor
  · simp only [draw_polygons, List.map, List.cons.injEq, and_true]
    unfold close_drop
    have hl : 1 < (scale_poly p).length := by
      simp only [scale_poly, List.length_map]; omega
    rw [if_pos hl, if_pos hfl]
    simp [scale_poly, List.map_dropLast]
  · norm_num [draw_polygons, scale_poly, close_drop, scale]

theorem c7_polygon_closing_witness :
    2 ≤ ([((0:ℚ),(0:ℚ)),(1,0),(1,1),(0,0)] : List (ℚ × ℚ)).length
    ∧ draw_polygons [[((0:ℚ),(0:ℚ)),(1,0),(1,1),(0,0)]]
        = [scale_poly ([((0:ℚ),(0:ℚ)),(1,0),(1,1),(0,0)] : List (ℚ × ℚ)).dropLast] := by
  refine ⟨by norm_num, (c7_polygon_closing _ (by norm_num) (by norm_num [scale_poly])).1⟩

/-- C9: the duplicate-drop is applied only when the scaled polygon has more
than one point; a one-point polygon is passed to the fill primitive
unchanged, and a non-empty polygon is never reduced to an empty point
list. -/
theorem c9_nonempty_fill (p : List (ℚ × ℚ)) :
    (p.length = 1 → draw_polygons [p] = [scale_poly p])
    ∧ (p ≠ [] → close_drop (scale_poly p) ≠ []) := by
  constructor
  · intro h1
    simp only [draw_polygons, List.map, List.cons.injEq, and_true]
    unfold close_drop
    have : ¬ 1 < (scale_poly p).length := by
      simp only [scale_poly, List.length_map, h1]; omega
    rw [if_neg this]
  · intro hne
    have hmap : scale_poly p ≠ [] := by
      simp only [scale_poly, ne_eq, List.map_eq_nil_iff]; exact hne
    unfold close_drop
    split
    · split
      · have h1 : 1 < (scale_poly p).length := by assumption
        have : (scale_poly p).dropLast.length = (scale_poly p).length - 1 :=
          List.length_dropLast _
        intro hcon
        rw [hcon] at this
        simp at this
        omega
      · exact hmap
    · exact hmap

theorem c9_nonempty_fill_witness :
    draw_polygons [[((2:ℚ), (3:ℚ))]] = [scale_poly [((2:ℚ), (3:ℚ))]]
    ∧ close_drop (scale_poly [((2:ℚ), (3:ℚ))]) ≠ [] :=
  ⟨(c9_nonempty_fill [((2:ℚ), (3:ℚ))]).1 rfl,
   (c9_nonempty_fill [((2:ℚ), (3:ℚ))]).2 (by simp)⟩

/-- C2: in every `draw_arcs` call, each arc after the first starts exactly at
the previous arc's ending point — the starting point is assigned directly from
the stored ending point, so the equality is exact. -/
theorem c2_continuity (solver : Solver) (data : List (ℝ × ℝ)) (s : GoodState) :
    List.Chain' (fun a b => b.startingPoint = a.endingPoint) (draw_arcs solver data s).1 :=
  (loop_chain solver data 0 s).1

/-- C3: for every resolved arc (with positive radius), the start angle is the
rounded degree-converted `atan2` of the start point around the center, the
drawing primitive receives `(deg, deg + span)` for a non-negative turn and
`(deg - span, deg)` for a negative turn, where `span` is the floor division
`(180*l) // (pi*radius)`, and the drawn angular span is `span` either way. -/
theorem c3_draw_angles (solver : Solver) (data : List (ℝ × ℝ)) (s : GoodState)
    (a : ResolvedArc) (ha : a ∈ (draw_arcs solver data s).1) (hrad : 0 < a.radius) :
    a.startAngleDeg = round (degrees (atan2 (a.startingPoint.2 - a.circleCenter.2)
        (a.startingPoint.1 - a.circleCenter.1)))
    ∧ (a.negativeTurn = false →
        a.drawStart = (a.startAngleDeg : ℝ)
        ∧ a.drawEnd = (a.startAngleDeg : ℝ) + fdiv (180 * a.l) (Real.pi * a.radius))
    ∧ (a.negativeTurn = true →
        a.drawStart = (a.startAngleDeg : ℝ) - fdiv (180 * a.l) (Real.pi * a.radius)
        ∧ a.drawEnd = (a.startAngleDeg : ℝ))
    ∧ a.drawEnd - a.drawStart = fdiv (180 * a.l) (Real.pi * a.radius) := by
  obtain ⟨h1, h2, h3, h4, _⟩ := loop_mem_inv solver data 0 s a ha
  refine ⟨by rw [h2, h1], ?_, ?_, ?_⟩
  · intro hneg
    rw [h3, h4, hneg]
    constructor
    · simp
    · simp only [Bool.false_eq_true, if_false]
      ring
  · intro hneg
    rw [h3, h4, hneg]
    constructor
    · simp
    · simp
  · rw [h3, h4]
    cases a.negativeTurn <;> simp

theorem c3_draw_angles_witness :
    arc₁ ∈ (draw_arcs solver₀ [((1:ℝ)/2, 1/100)] initGood).1
    ∧ 0 < arc₁.radius
    ∧ arc₁.drawEnd - arc₁.drawStart = fdiv (180 * arc₁.l) (Real.pi * arc₁.radius) := by
  have hm : arc₁ ∈ (draw_arcs solver₀ [((1:ℝ)/2, 1/100)] initGood).1 := by
    rw [scenario1_arcs solver₀]
    exact List.mem_singleton.mpr rfl
  exact ⟨hm, by norm_num [arc₁],
    (c3_draw_angles solver₀ _ initGood arc₁ hm (by norm_num [arc₁])).2.2.2⟩

/-- C4: every resolved arc's ending point is
`center + radius * (cos phi, sin phi)` where `phi` is the original, pre-swap,
unrounded `atan2` start angle minus `l/radius` for a negative turn and plus
`l/radius` otherwise; the drawing swap never affects it. -/
theorem c4_ending_point (solver : Solver) (data : List (ℝ × ℝ)) (s : GoodState)
    (a : ResolvedArc) (ha : a ∈ (draw_arcs solver data s).1) :
    a.startAngleRad = atan2 (a.startingPoint.2 - a.circleCenter.2)
        (a.startingPoint.1 - a.circleCenter.1)
    ∧ a.endingPoint = (a.circleCenter.1 + a.radius * Real.cos
          (if a.negativeTurn then a.startAngleRad - a.l / a.radius
           else a.startAngleRad + a.l / a.radius),
        a.circleCenter.2 + a.radius * Real.sin
          (if a.negativeTurn then a.startAngleRad - a.l / a.radius
           else a.startAngleRad + a.l / a.radius)) := by
  obtain ⟨h1, _, _, _, h5⟩ := loop_mem_inv solver data 0 s a ha
  refine ⟨h1, ?_⟩
  rw [h5]
  unfold find_ending_point
  cases a.negativeTurn <;> simp

theorem c4_ending_point_witness :
    arc₁ ∈ (draw_arcs solver₀ [((1:ℝ)/2, 1/100)] initGood).1
    ∧ arc₁.startAngleRad = atan2 (arc₁.startingPoint.2 - arc₁.circleCenter.2)
        (arc₁.startingPoint.1 - arc₁.circleCenter.1) := by
  have hm : arc₁ ∈ (draw_arcs solver₀ [((1:ℝ)/2, 1/100)] initGood).1 := by
    rw [scenario1_arcs solver₀]
    exact List.mem_singleton.mpr rfl
  exact ⟨hm, (c4_ending_point solver₀ _ initGood arc₁ hm).1⟩

/-- C5: an arc whose radius input is `0` makes `draw_arcs` raise an unhandled
division-by-zero in the angular-span floor division; the error propagates to
the caller (no final state, no save) and no arc at or past the faulting
position is drawn. -/
theorem c5_zero_radius (solver : Solver) (data : List (ℝ × ℝ)) (s : GoodState)
    (k : ℕ) (len rin : ℝ) (hk : data.get? k = some (len, rin)) (h0 : rin = 0) :
    (draw_arcs solver data s).2 = none ∧ (draw_arcs solver data s).1.length ≤ k := by
  subst h0
  have h := loop_zero_radius solver data k 0 s len hk
  refine ⟨?_, h.2⟩
  show ((draw_arcs_loop solver 0 data s).2).map _ = none
  rw [h.1]
  rfl

theorem c5_zero_radius_witness :
    ([((1:ℝ), (0:ℝ))].get? 0 = some (1, 0))
    ∧ (draw_arcs solver₀ [((1:ℝ), (0:ℝ))] initGood).2 = none
    ∧ (draw_arcs solver₀ [((1:ℝ), (0:ℝ))] initGood).1.length ≤ 0 :=
  ⟨rfl, (c5_zero_radius solver₀ [((1:ℝ), (0:ℝ))] initGood 0 1 0 rfl rfl).1,
    (c5_zero_radius solver₀ [((1:ℝ), (0:ℝ))] initGood 0 1 0 rfl rfl).2⟩

/-- C6: the reset operation puts the chain's circle center back at the canvas
center, and two `draw_arcs` calls on the same list, each made after a reset,
give their first arcs identical starting geometry — the circle center is the
canvas center and the starting point lies directly left of it by the scaled
radius — regardless of leftover state. -/
theorem c6_reset (solver₁ solver₂ : Solver) (data : List (ℝ × ℝ)) (s₁ s₂ : GoodState)
    (a₁ a₂ : ResolvedArc)
    (h₁ : ((draw_arcs solver₁ data (reset_image_coordinates s₁)).1).head? = some a₁)
    (h₂ : ((draw_arcs solver₂ data (reset_image_coordinates s₂)).1).head? = some a₂) :
    (reset_image_coordinates s₁).circle_center = canvasCenter
    ∧ a₁.circleCenter = canvasCenter
    ∧ a₁.startingPoint = (canvasCenter.1 - a₁.radius, canvasCenter.2)
    ∧ a₂.circleCenter = a₁.circleCenter
    ∧ a₂.startingPoint = a₁.startingPoint
    ∧ a₂.radius = a₁.radius := by
  cases data with
  | nil => simp [draw_arcs, draw_arcs_loop] at h₁
  | cons d rest =>
    obtain ⟨hc₁, hr₁, hs₁⟩ := draw_arcs_head solver₁ d rest _ a₁ h₁
    obtain ⟨hc₂, hr₂, hs₂⟩ := draw_arcs_head solver₂ d rest _ a₂ h₂
    refine ⟨rfl, ?_, ?_, ?_, ?_, ?_⟩
    · rw [hc₁]; rfl
    · rw [hs₁]; rfl
    · rw [hc₁, hc₂]; rfl
    · rw [hs₁, hs₂, hr₁, hr₂]; rfl
    · rw [hr₁, hr₂]

theorem c6_reset_witness :
    (reset_image_coordinates initGood).circle_center = canvasCenter
    ∧ arc₁.circleCenter = canvasCenter
    ∧ arc₁.startingPoint = (canvasCenter.1 - arc₁.radius, canvasCenter.2)
    ∧ arc₁.circleCenter = arc₁.circleCenter
    ∧ arc₁.startingPoint = arc₁.startingPoint
    ∧ arc₁.radius = arc₁.radius := by
  have hres : reset_image_coordinates initGood = initGood := rfl
  have h : ((draw_arcs solver₀ [((1:ℝ)/2, 1/100)] (reset_image_coordinates initGood)).1).head?
      = some arc₁ := by
    rw [hres, scenario1_arcs solver₀]
    rfl
  exact c6_reset solver₀ solver₀ _ initGood initGood arc₁ arc₁ h h

/-- C8: on a fresh session, drawing the single-arc chain `[(0.5, 0.01)]`
resolves the first arc with starting point `(1490, 1500)`, start angle 180
degrees, and end angle `180 + floor(180*500/(pi*10)) = 3044`, independently of
the solver (the solver is never consulted for the first arc). -/
theorem c8_scenario1 (solver : Solver) :
    ((draw_arcs solver [((1:ℝ)/2, 1/100)] initGood).1).map
        (fun a => (a.startingPoint, a.startAngleDeg, a.drawStart, a.drawEnd))
      = [(((1490:ℝ), (1500:ℝ)), (180:ℤ), (180:ℝ), (3044:ℝ))]
    ∧ (180:ℝ) + fdiv (180 * 500) (Real.pi * 10) = 3044 := by
  constructor
  · rw [scenario1_arcs solver]
    simp [arc₁]
  · norm_num [floor_span₁]

/-- C10: `draw_arcs` on an empty arc list draws nothing and returns the state
with every chain field unchanged, while still resizing the image, saving it
to `drawn_arcs.png`, and showing it. -/
theorem c10_empty_draw (solver : Solver) (s : GoodState) :
    draw_arcs solver [] s = ([], some (s, finish_effects))
    ∧ finish_effects = [Effect.resize 3000 3000, Effect.save "drawn_arcs.png",
        Effect.showImage] := by
  exact ⟨rfl, by norm_num [finish_effects, image_size, size_multiplier]⟩

end DrawingRobots
